import Mathlib

/-!
Verification of the zsplendor concurrency/orchestration layer.

Shallow embedding of the arena worker pool (`ArenaWorkerPool`), the
single-task AI proxy (`AIWorkerProxy`), the tournament scheduler and
result aggregator (`ArenaController` in `src/web/js/main.js`), and the
arena worker's `RUN_MATCHUP` per-game loop (`arena_worker` source),
together with theorems settling the specification claims about them.

Modelling conventions:
the JavaScript per-competitor accumulator arrays (filled with `0` and
updated by `arr[i] += x`) are modelled as total maps `Nat -> value`;
JS `Map` tables keyed by request id are modelled as association lists;
promise resolution / rejection and `postMessage` calls are modelled as
explicit effect values emitted by each transition function, so that
"resolves exactly once" style claims become statements about the list
of emitted effects; wall-clock time is an explicit `Nat` millisecond
parameter, and a `setTimeout(f, d)` armed at time `t` is an entry with
deadline `t + d` which the environment may fire at any time `t' ≥ t + d`.
-/

namespace ZSplendor

/-- Pointwise `array[i] += x` on an accumulator array modelled as a total
map from index to value. -/
def addAt {α : Type} [Add α] (f : Nat → α) (i : Nat) (x : α) : Nat → α :=
  fun k => if k = i then f k + x else f k

/-- One game's result object as produced by the arena worker and consumed
by `ArenaController.aggregateResults` (fields `bot1Index`, `bot2Index`,
`winner`, `turnCount`, `bot1Points`, `bot2Points`). -/
structure GameResult where
  bot1Index : Nat
  bot2Index : Nat
  winner : Nat
  turnCount : Nat
  bot1Points : Int
  bot2Points : Int
deriving DecidableEq, Repr

/-- An entry of `ArenaWorkerPool.results`: the object
`{ matchupId, results }` pushed on a `MATCHUP_COMPLETE` message. -/
structure MatchupOutcome where
  matchupId : String
  results : List GameResult
deriving DecidableEq, Repr

/-- A matchup task as built by `ArenaController.runTournamentParallel`
(`{ matchupId, bot1, bot2, bot1Index, bot2Index, gamesPerMatchup }`).
The `bot1` / `bot2` configuration payloads are opaque to the scheduler
and the pool (neither reads them), so they are omitted here. -/
structure Task where
  matchupId : String
  bot1Index : Nat
  bot2Index : Nat
  gamesPerMatchup : Nat
deriving DecidableEq, Repr

namespace ArenaController

/-- The task object pushed for the pair `(i, j)` by the nested loop in
`ArenaController.runTournamentParallel`. -/
def mkMatchupTask (i j gamesPerMatchup : Nat) : Task :=
  { matchupId := "bot" ++ toString i ++ "_vs_bot" ++ toString j
    bot1Index := i
    bot2Index := j
    gamesPerMatchup := gamesPerMatchup }

/-- Task-creation double loop of `ArenaController.runTournamentParallel`:
`for (i = 0; i < bots.length; i++) for (j = i + 1; j < bots.length; j++)`
pushes one task per pair; `numBots` is `this.bots.length`. -/
def scheduleRoundRobin (numBots gamesPerMatchup : Nat) : List Task :=
  (List.range numBots).flatMap (fun i =>
    (List.range' (i + 1) (numBots - (i + 1))).map
      (fun j => mkMatchupTask i j gamesPerMatchup))

/-- Per-competitor accumulators of `ArenaController.aggregateResults`. -/
structure AggAcc where
  gamesPlayed : Nat → Nat
  wins : Nat → Nat
  losses : Nat → Nat
  totalPoints : Nat → Int
  totalWinTurns : Nat → Nat

/-- Accumulator arrays as initialized by `new Array(n).fill(0)`. -/
def initAcc : AggAcc :=
  { gamesPlayed := fun _ => 0
    wins := fun _ => 0
    losses := fun _ => 0
    totalPoints := fun _ => 0
    totalWinTurns := fun _ => 0 }

/-- Body of the per-game `forEach` in `ArenaController.aggregateResults`:
both participants' `gamesPlayed` are incremented; if `winner === 0` the
first bot gets the win (and the winner's `totalWinTurns` grows by
`turnCount`), otherwise the second bot does; both points totals grow. -/
def foldGame (acc : AggAcc) (g : GameResult) : AggAcc :=
  let gp := addAt (addAt acc.gamesPlayed g.bot1Index 1) g.bot2Index 1
  let tp := addAt (addAt acc.totalPoints g.bot1Index g.bot1Points) g.bot2Index g.bot2Points
  if g.winner = 0 then
    { gamesPlayed := gp
      wins := addAt acc.wins g.bot1Index 1
      losses := addAt acc.losses g.bot2Index 1
      totalPoints := tp
      totalWinTurns := addAt acc.totalWinTurns g.bot1Index g.turnCount }
  else
    { gamesPlayed := gp
      wins := addAt acc.wins g.bot2Index 1
      losses := addAt acc.losses g.bot1Index 1
      totalPoints := tp
      totalWinTurns := addAt acc.totalWinTurns g.bot2Index g.turnCount }

/-- Folding a stream of game results through the aggregation loop of
`ArenaController.aggregateResults` (the nested `forEach` visits the
flattened game sequence in order). -/
def aggregateGames (games : List GameResult) : AggAcc :=
  games.foldl foldGame initAcc

/-- Body of the second pass of `ArenaController.aggregateResults`
computing `totalTurns` over `results.matches`. -/
def foldTurns (f : Nat → Nat) (g : GameResult) : Nat → Nat :=
  addAt (addAt f g.bot1Index g.turnCount) g.bot2Index g.turnCount

/-- The `totalTurns` array of `ArenaController.aggregateResults`. -/
def totalTurnsAcc (games : List GameResult) : Nat → Nat :=
  games.foldl foldTurns (fun _ => 0)

/-- The record returned by `ArenaController.aggregateResults` (the bot
name list is presentation-only and kept as its length `numBots`; the
source field `matches` is spelled `matchList` because `matches` is a
reserved word here). -/
structure ArenaResults where
  numBots : Nat
  matchList : List GameResult
  wins : Nat → Nat
  losses : Nat → Nat
  gamesPlayed : Nat → Nat
  totalPoints : Nat → Int
  totalWinTurns : Nat → Nat
  avgGameLength : Nat → ℚ
  avgPointsScored : Nat → ℚ
  avgWinTurns : Nat → ℚ

/-- `ArenaController.aggregateResults(matchupResults, ...)`: flattens the
per-matchup game lists in order, folds the accumulators, then computes
the average arrays for indices below `numBots` with positive
denominators (other entries keep their `fill(0)` value). -/
def aggregateResults (numBots : Nat) (matchupResults : List MatchupOutcome) : ArenaResults :=
  let games := matchupResults.flatMap MatchupOutcome.results
  let acc := aggregateGames games
  let tt := totalTurnsAcc games
  { numBots := numBots
    matchList := games
    wins := acc.wins
    losses := acc.losses
    gamesPlayed := acc.gamesPlayed
    totalPoints := acc.totalPoints
    totalWinTurns := acc.totalWinTurns
    avgGameLength := fun i =>
      if i < numBots ∧ 0 < acc.gamesPlayed i then (tt i : ℚ) / (acc.gamesPlayed i : ℚ) else 0
    avgPointsScored := fun i =>
      if i < numBots ∧ 0 < acc.gamesPlayed i then (acc.totalPoints i : ℚ) / (acc.gamesPlayed i : ℚ) else 0
    avgWinTurns := fun i =>
      if i < numBots ∧ 0 < acc.wins i then (acc.totalWinTurns i : ℚ) / (acc.wins i : ℚ) else 0 }

/-- JavaScript `x.toFixed(1)` (then `parseFloat`) on the exact rational
value: rounding to one decimal place. -/
def roundTenth (q : ℚ) : ℚ :=
  ((round (q * 10) : ℤ) : ℚ) / 10

/-- One row of the table built by `ArenaController.calculateWinRates`
(the `name` field is presentation-only and omitted; the `'N/A'` string
branch of `avgWinTurns` is the `none` case). -/
structure BotDisplay where
  wins : Nat
  losses : Nat
  gamesPlayed : Nat
  winRate : ℚ
  avgPoints : ℚ
  avgGameLength : ℚ
  avgWinTurns : Option ℚ
deriving DecidableEq, Repr

/-- `ArenaController.calculateWinRates`: maps over the bot indices; the
win rate is `(wins / (wins + losses) * 100).toFixed(1)` when
`wins + losses > 0` and the number `0` otherwise, while `avgWinTurns`
is the string `'N/A'` (here `none`) when its accumulator is not
positive. -/
def calculateWinRates (r : ArenaResults) : List BotDisplay :=
  (List.range r.numBots).map (fun idx =>
    let wins := r.wins idx
    let losses := r.losses idx
    let total := wins + losses
    { wins := wins
      losses := losses
      gamesPlayed := r.gamesPlayed idx
      winRate := if 0 < total then roundTenth (((wins : ℚ) / (total : ℚ)) * 100) else 0
      avgPoints := roundTenth (r.avgPointsScored idx)
      avgGameLength := roundTenth (r.avgGameLength idx)
      avgWinTurns :=
        if 0 < r.avgWinTurns idx then some (roundTenth (r.avgWinTurns idx)) else none })

/-- Modelled from the spec (for comparison only, claim C8): the spec's
display rule `winRate(stats, i) = wins[i] / (wins[i] + losses[i])`,
undefined (reported as N/A) when the denominator is zero. -/
def specWinRate (wins losses : Nat) : Option ℚ :=
  if wins + losses = 0 then none
  else some ((wins : ℚ) / ((wins : ℚ) + (losses : ℚ)))

end ArenaController

namespace ArenaWorker

/-- Exact argument record of one
`arenaWrapper.runSingleMatchup(bot1, bot2, bot1Index, bot2Index, 1)`
engine call issued by the `RUN_MATCHUP` handler; the bot configurations
are kept as opaque serialized strings. -/
structure MatchupCall where
  bot1 : String
  bot2 : String
  bot1Index : Nat
  bot2Index : Nat
  count : Nat
deriving DecidableEq, Repr

/-- Per-game loop of the `RUN_MATCHUP` handler in the arena worker: for
each `gameNum < gamesPerMatchup` it computes
`startingPlayer = gameNum % 2` and then calls
`runSingleMatchup(bot1, bot2, bot1Index, bot2Index, 1)`. Each list entry
pairs the computed `startingPlayer` with the argument record of the
engine call issued in the same iteration. -/
def runMatchupCalls (bot1 bot2 : String) (bot1Index bot2Index gamesPerMatchup : Nat) :
    List (Nat × MatchupCall) :=
  (List.range gamesPerMatchup).map (fun gameNum =>
    let startingPlayer := gameNum % 2
    (startingPlayer,
      { bot1 := bot1
        bot2 := bot2
        bot1Index := bot1Index
        bot2Index := bot2Index
        count := 1 }))

end ArenaWorker

namespace ArenaWorkerPool

/-- Mutable fields of an `ArenaWorkerPool` instance.  `resolveArmed`
models `this.resolveComplete !== null` (the stored promise resolver);
`hasProgressCallback` models `this.progressCallback !== null`. -/
structure PoolState where
  workerCount : Nat
  availableWorkers : List Nat
  busyWorkers : Finset Nat
  taskQueue : List Task
  results : List MatchupOutcome
  totalTasks : Nat
  completedTasks : Nat
  resolveArmed : Bool
  hasProgressCallback : Bool
  totalGames : Nat
  completedGames : Nat
deriving DecidableEq

/-- Worker-to-pool messages handled by
`ArenaWorkerPool.handleWorkerMessage`. -/
inductive WorkerMsg where
  | gameComplete (matchupId : String) (gameResult : GameResult)
  | matchupComplete (matchupId : String) (results : List GameResult)
  | matchupError (matchupId : String) (error : String)
deriving DecidableEq, Repr

/-- Observable actions of the pool: a progress-callback invocation, a
`postMessage({type: 'RUN_MATCHUP'})` to a worker, or a call of the
stored promise resolver. -/
inductive PoolEffect where
  | progress (completedGames totalGames : Nat) (gameResult : GameResult)
  | post (workerIndex : Nat) (task : Task)
  | resolve (results : List MatchupOutcome)
deriving DecidableEq, Repr

/-- `ArenaWorkerPool.processNextTask`: resolve the stored promise with
the accumulated results when every task is counted complete, otherwise
hand the front queued task to the front available worker (if both
exist). -/
def processNextTask (s : PoolState) : PoolState × List PoolEffect :=
  if s.totalTasks ≤ s.completedTasks then
    if s.resolveArmed then
      ({ s with resolveArmed := false }, [PoolEffect.resolve s.results])
    else (s, [])
  else
    match s.taskQueue, s.availableWorkers with
    | task :: queueRest, w :: workersRest =>
        ({ s with taskQueue := queueRest
                  availableWorkers := workersRest
                  busyWorkers := insert w s.busyWorkers },
         [PoolEffect.post w task])
    | _, _ => (s, [])

/-- `ArenaWorkerPool.handleWorkerMessage`: `GAME_COMPLETE` bumps the
global game counter and fires the progress callback;
`MATCHUP_COMPLETE` records the outcome, counts the task complete, frees
the worker and continues; `MATCHUP_ERROR` counts the task complete and
frees the worker without recording anything. -/
def handleWorkerMessage (s : PoolState) (workerIndex : Nat) (m : WorkerMsg) :
    PoolState × List PoolEffect :=
  match m with
  | WorkerMsg.gameComplete _ g =>
      let s1 := { s with completedGames := s.completedGames + 1 }
      (s1, if s1.hasProgressCallback then [PoolEffect.progress s1.completedGames s1.totalGames g] else [])
  | WorkerMsg.matchupComplete matchupId results =>
      processNextTask
        { s with results := s.results ++ [{ matchupId := matchupId, results := results }]
                 completedTasks := s.completedTasks + 1
                 busyWorkers := s.busyWorkers.erase workerIndex
                 availableWorkers := s.availableWorkers ++ [workerIndex] }
  | WorkerMsg.matchupError _ _ =>
      processNextTask
        { s with completedTasks := s.completedTasks + 1
                 busyWorkers := s.busyWorkers.erase workerIndex
                 availableWorkers := s.availableWorkers ++ [workerIndex] }

/-- `ArenaWorkerPool.handleWorkerError`: if the erroring worker is
currently busy it is deleted from the busy set, pushed back onto
`availableWorkers`, its task is counted complete (with no outcome
recorded), and processing continues; otherwise nothing happens. -/
def handleWorkerError (s : PoolState) (workerIndex : Nat) : PoolState × List PoolEffect :=
  if workerIndex ∈ s.busyWorkers then
    processNextTask
      { s with busyWorkers := s.busyWorkers.erase workerIndex
               availableWorkers := s.availableWorkers ++ [workerIndex]
               completedTasks := s.completedTasks + 1 }
  else (s, [])

/-- The `for (let i = 0; i < initialBatch; i++) this.processNextTask()`
loop of `ArenaWorkerPool.runTasks`. -/
def processN : Nat → PoolState → PoolState × List PoolEffect
  | 0, s => (s, [])
  | n + 1, s =>
      let r1 := processNextTask s
      let r2 := processN n r1.1
      (r2.1, r1.2 ++ r2.2)

/-- `ArenaWorkerPool.runTasks`: resets the queue, counters and result
list, arms the completion promise, and either resolves immediately on a
zero-task submission or kicks off `min(workerCount, queue length)`
assignment steps.  (In the zero-task branch the source resolves without
clearing `resolveComplete`, which the model preserves.) -/
def runTasks (s : PoolState) (tasks : List Task) (hasCallback : Bool) :
    PoolState × List PoolEffect :=
  let s1 := { s with taskQueue := tasks
                     totalTasks := tasks.length
                     completedTasks := 0
                     results := []
                     hasProgressCallback := hasCallback
                     totalGames := (tasks.map Task.gamesPerMatchup).sum
                     completedGames := 0
                     resolveArmed := true }
  let initialBatch := min s1.workerCount s1.taskQueue.length
  if initialBatch = 0 ∧ s1.totalTasks = 0 then
    (s1, [PoolEffect.resolve s1.results])
  else
    processN initialBatch s1

/-- Processing of a sequence of worker messages by the pool's message
handler, accumulating the emitted effects in order. -/
def poolRunMsgs (s : PoolState) : List (Nat × WorkerMsg) → PoolState × List PoolEffect
  | [] => (s, [])
  | (w, m) :: rest =>
      let r1 := handleWorkerMessage s w m
      let r2 := poolRunMsgs r1.1 rest
      (r2.1, r1.2 ++ r2.2)

/-- The promise resolutions among a list of pool effects. -/
def resolutions (effs : List PoolEffect) : List (List MatchupOutcome) :=
  effs.filterMap (fun e =>
    match e with
    | PoolEffect.resolve rs => some rs
    | _ => none)

/-- Whether a worker message counts its matchup task as terminated
(`MATCHUP_COMPLETE` or `MATCHUP_ERROR`). -/
def isTerminalMsg : WorkerMsg → Bool
  | WorkerMsg.matchupComplete _ _ => true
  | WorkerMsg.matchupError _ _ => true
  | WorkerMsg.gameComplete _ _ => false

/-- The `{ matchupId, results }` records the pool pushes for the
`MATCHUP_COMPLETE` messages of an event sequence, in order. -/
def successOutcomes (events : List (Nat × WorkerMsg)) : List MatchupOutcome :=
  events.filterMap (fun e =>
    match e.2 with
    | WorkerMsg.matchupComplete matchupId results =>
        some { matchupId := matchupId, results := results }
    | _ => none)

/-- A freshly initialized pool of `workerCount` workers, as left by a
successful `ArenaWorkerPool.initialize` (all workers idle). -/
def freshPool (workerCount : Nat) : PoolState :=
  { workerCount := workerCount
    availableWorkers := List.range workerCount
    busyWorkers := ∅
    taskQueue := []
    results := []
    totalTasks := 0
    completedTasks := 0
    resolveArmed := false
    hasProgressCallback := false
    totalGames := 0
    completedGames := 0 }

end ArenaWorkerPool

namespace AIWorkerProxy

/-- Error values with which an `AIWorkerProxy` promise can be rejected:
`new Error('AI computation timeout')`, the per-request error message of
an `AI_ERROR` reply, and `new Error('Worker crashed')`. -/
inductive ProxyError where
  | timeout
  | compute (msg : String)
  | crashed
deriving DecidableEq, Repr

/-- Observable actions of the proxy: a `COMPUTE_AI_ACTION` post to the
worker, the main-thread fallback computation, a resolution or rejection
of a request's promise, the restart attempt after a crash, and
`worker.terminate()`. -/
inductive ProxyEffect where
  | postCompute (id difficulty : Nat) (timeLimit : ℚ)
  | fallbackCompute
  | resolve (id : Nat) (action : String)
  | reject (id : Nat) (err : ProxyError)
  | restartWorker
  | terminateWorker
deriving DecidableEq, Repr

/-- Mutable fields of an `AIWorkerProxy` instance.  Request ids are the
values of `requestIdCounter` (the source id string is
`'ai_request_' + counter`, which is in bijection with the counter since
the prefix is fixed).  `pending` is the `pendingRequests` map as an
insertion-ordered association list from id to the deadline of its
30-second timeout; `timers` is the set of armed `setTimeout` timers
(id, deadline) — an entry leaves `timers` only via `clearTimeout` or by
firing, so `pendingRequests.clear()` does not remove it. -/
structure ProxyState where
  hasWorker : Bool
  isReady : Bool
  useWorker : Bool
  requestIdCounter : Nat
  difficulty : Nat
  timeLimit : ℚ
  pending : List (Nat × Nat)
  timers : List (Nat × Nat)
deriving DecidableEq, Repr

/-- `AIWorkerProxy.getAIAction(gameState, playerId)` at wall-clock time
`now` (milliseconds): throws when not initialized, runs the fallback
path when workers are unavailable, and otherwise generates the fresh
request id, stores a pending entry whose timeout deadline is
`now + 30000`, arms the timer, and posts `COMPUTE_AI_ACTION`.  Returns
the created request id alongside the new state and effects. -/
def getAIAction (s : ProxyState) (now : Nat) :
    Except String (ProxyState × List ProxyEffect × Option Nat) :=
  if s.isReady = false then
    Except.error "AI Worker not initialized"
  else if s.useWorker = false then
    Except.ok (s, [ProxyEffect.fallbackCompute], none)
  else
    let id := s.requestIdCounter
    Except.ok
      ({ s with requestIdCounter := id + 1
                pending := s.pending ++ [(id, now + 30000)]
                timers := s.timers ++ [(id, now + 30000)] },
       [ProxyEffect.postCompute id s.difficulty s.timeLimit],
       some id)

/-- The `setTimeout` callback armed by `getAIAction` for request `id`:
it deletes the pending entry and rejects the request's promise with the
timeout error; the fired timer is consumed. -/
def fireTimeout (s : ProxyState) (id : Nat) : ProxyState × List ProxyEffect :=
  ({ s with pending := s.pending.filter (fun p => p.1 != id)
            timers := s.timers.filter (fun p => p.1 != id) },
   [ProxyEffect.reject id ProxyError.timeout])

/-- `AIWorkerProxy.handleActionResult`: if a pending entry matches the
reply's id, clear its timeout, delete the entry and resolve the promise
with the action; otherwise do nothing (a late reply is discarded). -/
def handleActionResult (s : ProxyState) (id : Nat) (action : String) :
    ProxyState × List ProxyEffect :=
  if s.pending.any (fun p => p.1 == id) then
    ({ s with pending := s.pending.filter (fun p => p.1 != id)
              timers := s.timers.filter (fun p => p.1 != id) },
     [ProxyEffect.resolve id action])
  else (s, [])

/-- `AIWorkerProxy.handleActionError`: like `handleActionResult` but
rejects the matching pending request with the reported error. -/
def handleActionError (s : ProxyState) (id : Nat) (msg : String) :
    ProxyState × List ProxyEffect :=
  if s.pending.any (fun p => p.1 == id) then
    ({ s with pending := s.pending.filter (fun p => p.1 != id)
              timers := s.timers.filter (fun p => p.1 != id) },
     [ProxyEffect.reject id (ProxyError.compute msg)])
  else (s, [])

/-- `AIWorkerProxy.handleError` (worker `onerror`): clears every pending
request's timeout, rejects each with the crash error, empties the table
and attempts a restart. -/
def handleError (s : ProxyState) : ProxyState × List ProxyEffect :=
  ({ s with pending := []
            timers := s.timers.filter (fun t => !(s.pending.any (fun p => p.1 == t.1))) },
   s.pending.map (fun p => ProxyEffect.reject p.1 ProxyError.crashed) ++ [ProxyEffect.restartWorker])

/-- `AIWorkerProxy.terminate`: terminates the worker when present,
clears readiness, and empties the pending-request table by
`pendingRequests.clear()` — without rejecting the pending requests and
without cancelling their armed timeout timers. -/
def terminate (s : ProxyState) : ProxyState × List ProxyEffect :=
  ({ s with hasWorker := false
            isReady := false
            pending := [] },
   if s.hasWorker then [ProxyEffect.terminateWorker] else [])

/-- Events driving the proxy: an incoming `getAIAction` call at a given
time, the environment firing an armed request timer at a given time, a
worker reply or error message, and a `terminate()` call. -/
inductive ProxyEvent where
  | request (now : Nat)
  | timerFire (id now : Nat)
  | actionResult (id : Nat) (action : String)
  | actionError (id : Nat) (msg : String)
  | terminateCall
deriving DecidableEq, Repr

/-- One proxy transition per event (a `request` on an uninitialized
proxy throws to its caller and changes nothing). -/
def proxyStep (s : ProxyState) (e : ProxyEvent) : ProxyState × List ProxyEffect :=
  match e with
  | ProxyEvent.request now =>
      match getAIAction s now with
      | Except.ok r => (r.1, r.2.1)
      | Except.error _ => (s, [])
  | ProxyEvent.timerFire id _ => fireTimeout s id
  | ProxyEvent.actionResult id action => handleActionResult s id action
  | ProxyEvent.actionError id msg => handleActionError s id msg
  | ProxyEvent.terminateCall => terminate s

/-- Processing of an event sequence by the proxy, accumulating emitted
effects in order. -/
def proxyRun (s : ProxyState) : List ProxyEvent → ProxyState × List ProxyEffect
  | [] => (s, [])
  | e :: rest =>
      let r1 := proxyStep s e
      let r2 := proxyRun r1.1 rest
      (r2.1, r1.2 ++ r2.2)

/-- The effects among `effs` that settle (resolve or reject) the promise
of request `id`. -/
def settlesFor (id : Nat) (effs : List ProxyEffect) : List ProxyEffect :=
  effs.filter (fun e =>
    match e with
    | ProxyEffect.resolve i _ => i == id
    | ProxyEffect.reject i _ => i == id
    | _ => false)

/-- An event neither mentions request `id` nor tears the proxy down:
such events are exactly the ones that can occur while request `id` is
outstanding and "never receives a matching reply". -/
def avoidsId (id : Nat) : ProxyEvent → Bool
  | ProxyEvent.request _ => true
  | ProxyEvent.timerFire i _ => i != id
  | ProxyEvent.actionResult i _ => i != id
  | ProxyEvent.actionError i _ => i != id
  | ProxyEvent.terminateCall => false

/-- A ready worker-backed proxy with no outstanding requests, as left by
a successful `AIWorkerProxy.initialize` (default difficulty 5000000 and
time limit 2.5 s, as in the constructor). -/
def freshProxy : ProxyState :=
  { hasWorker := true
    isReady := true
    useWorker := true
    requestIdCounter := 0
    difficulty := 5000000
    timeLimit := 5 / 2
    pending := []
    timers := [] }

end AIWorkerProxy

/-! Concrete fixtures used by witnesses and counterexamples. -/

/-- A concrete matchup task (one game between bots 0 and 1). -/
def cTask : Task :=
  { matchupId := "bot0_vs_bot1", bot1Index := 0, bot2Index := 1, gamesPerMatchup := 1 }

/-- Concrete game result: bot 0 beats bot 1 in 12 turns, 15 : 9 points. -/
def cG1 : GameResult :=
  { bot1Index := 0, bot2Index := 1, winner := 0, turnCount := 12, bot1Points := 15, bot2Points := 9 }

/-- Concrete game result: bot 1 beats bot 0 in 20 turns, 10 : 16 points. -/
def cG2 : GameResult :=
  { bot1Index := 0, bot2Index := 1, winner := 1, turnCount := 20, bot1Points := 10, bot2Points := 16 }

/-- Concrete game result: bot 0 beats bot 1 in 9 turns, 15 : 3 points. -/
def cG3 : GameResult :=
  { bot1Index := 0, bot2Index := 1, winner := 0, turnCount := 9, bot1Points := 15, bot2Points := 3 }

/-- Matchup outcome list delivering the games `[cG1, cG2, cG3]`. -/
def cM1 : List MatchupOutcome :=
  [{ matchupId := "bot0_vs_bot1", results := [cG1, cG2, cG3] }]

/-- Matchup outcome list delivering the same games in the order
`[cG3, cG1, cG2]`, split across two outcomes. -/
def cM2 : List MatchupOutcome :=
  [{ matchupId := "bot0_vs_bot1", results := [cG3] },
   { matchupId := "extra", results := [cG1, cG2] }]

/-- Pool state with worker 0 busy on one task, a second task queued, and
nobody idle — the situation right before worker 0 crashes. -/
def cPool : ArenaWorkerPool.PoolState :=
  { workerCount := 1
    availableWorkers := []
    busyWorkers := {0}
    taskQueue := [cTask]
    results := []
    totalTasks := 2
    completedTasks := 0
    resolveArmed := true
    hasProgressCallback := false
    totalGames := 2
    completedGames := 0 }

/-- Proxy state with one in-flight request (id 0, timeout deadline at
30000 ms) — the situation right before `terminate()` is called. -/
def cProxy : AIWorkerProxy.ProxyState :=
  { hasWorker := true
    isReady := true
    useWorker := true
    requestIdCounter := 1
    difficulty := 5000000
    timeLimit := 5 / 2
    pending := [(0, 30000)]
    timers := [(0, 30000)] }

/-! Helper lemmas. -/

/-- Sums over `List.range` agree with `Finset.range` sums. -/
lemma sum_map_range (f : Nat → Nat) : ∀ n, ((List.range n).map f).sum = ∑ k ∈ Finset.range n, f k := by
  intro n
  induction n with
  | zero => simp
  | succ m ih => simp [List.range_succ, Finset.sum_range_succ, ih]

open ArenaController in
/-- C5: for `numBots` configured competitors (`numBots ≥ 2`) and any
`gamesPerMatchup`, the task-creation loop of `runTournamentParallel`
produces exactly `numBots * (numBots - 1) / 2` tasks; every task pairs
two distinct competitors `i < j < numBots` and carries `gamesPerMatchup`
matches; and every unordered pair `(i, j)` with `i < j < numBots`
appears in exactly one task (no pair repeated, no self-pairing). -/
theorem scheduleRoundRobin_round_robin (numBots gamesPerMatchup : Nat) (hC : 2 ≤ numBots) :
    (scheduleRoundRobin numBots gamesPerMatchup).length = numBots * (numBots - 1) / 2 ∧
    (∀ t ∈ scheduleRoundRobin numBots gamesPerMatchup,
      t.bot1Index < t.bot2Index ∧ t.bot2Index < numBots ∧
      t.gamesPerMatchup = gamesPerMatchup) ∧
    (∀ i j, i < j → j < numBots →
      (scheduleRoundRobin numBots gamesPerMatchup).countP
        (fun t => t.bot1Index == i && t.bot2Index == j) = 1) := by
  refine ⟨?_, ?_, ?_⟩
  · have h1 : (scheduleRoundRobin numBots gamesPerMatchup).length
        = ((List.range numBots).map (fun i => numBots - (i + 1))).sum := by
      simp [scheduleRoundRobin, List.length_flatMap, Function.comp_def, List.length_range']
    rw [h1, sum_map_range]
    have h2 : ∀ i ∈ Finset.range numBots, numBots - (i + 1) = numBots - 1 - i := by
      intro i _
      omega
    rw [Finset.sum_congr rfl h2, Finset.sum_range_reflect (fun i => i) numBots,
      Finset.sum_range_id]
  · intro t ht
    rw [scheduleRoundRobin, List.mem_flatMap] at ht
    obtain ⟨i, hi, ht⟩ := ht
    rw [List.mem_map] at ht
    obtain ⟨j, hj, rfl⟩ := ht
    rw [List.mem_range'] at hj
    obtain ⟨k, hk, rfl⟩ := hj
    refine ⟨by simp [mkMatchupTask]; omega, by simp [mkMatchupTask]; omega, rfl⟩
  · intro i j hij hj
    rw [scheduleRoundRobin, List.countP_flatMap]
    have hpt : ∀ i' ∈ List.range numBots,
        (List.countP (fun t => t.bot1Index == i && t.bot2Index == j) ∘
          fun i' => (List.range' (i' + 1) (numBots - (i' + 1))).map
            (fun j' => mkMatchupTask i' j' gamesPerMatchup)) i'
          = if i' = i then 1 else 0 := by
      intro i' _
      simp only [Function.comp_apply, List.countP_map]
      by_cases hii : i' = i
      · subst hii
        have hcnt : ((fun t => t.bot1Index == i' && t.bot2Index == j) ∘
            fun j' => mkMatchupTask i' j' gamesPerMatchup)
            = fun j' => j' == j := by
          funext j'
          simp [mkMatchupTask]
        rw [if_pos rfl, hcnt]
        have hmem : j ∈ List.range' (i' + 1) (numBots - (i' + 1)) := by
          rw [List.mem_range']
          exact ⟨j - (i' + 1), by omega, by omega⟩
        have := List.count_eq_one_of_mem (List.nodup_range' _ _) hmem
        simpa [List.count] using this
      · rw [if_neg hii]
        rw [List.countP_eq_zero]
        intro j' _
        simp [mkMatchupTask, hii]
    rw [List.map_congr_left hpt, sum_map_range (fun i' => if i' = i then 1 else 0),
      Finset.sum_ite_eq' (Finset.range numBots) i (fun _ => 1),
      if_pos (Finset.mem_range.mpr (by omega))]

/-- C5 witness: the theorem instantiated for four competitors and ten
games per pair (six tasks; pair (1, 3) occurs exactly once). -/
theorem scheduleRoundRobin_round_robin_witness :
    2 ≤ 4 ∧
    ((ArenaController.scheduleRoundRobin 4 10).length = 4 * (4 - 1) / 2 ∧
     (∀ t ∈ ArenaController.scheduleRoundRobin 4 10,
       t.bot1Index < t.bot2Index ∧ t.bot2Index < 4 ∧ t.gamesPerMatchup = 10) ∧
     (∀ i j, i < j → j < 4 →
       (ArenaController.scheduleRoundRobin 4 10).countP
         (fun t => t.bot1Index == i && t.bot2Index == j) = 1)) :=
  ⟨by decide, scheduleRoundRobin_round_robin 4 10 (by decide)⟩

open ArenaController in
/-- Preservation of the wins-plus-losses invariant by a single
aggregation step: every game adds one `gamesPlayed` to each participant
and exactly one win (to the winner) and one loss (to the loser). -/
lemma foldGame_inv (acc : AggAcc) (g : GameResult)
    (h : ∀ i, acc.wins i + acc.losses i = acc.gamesPlayed i) :
    ∀ i, (foldGame acc g).wins i + (foldGame acc g).losses i
      = (foldGame acc g).gamesPlayed i := by
  intro i
  simp only [foldGame]
  split <;> simp only [addAt] <;> split_ifs <;> simp only [← h i] <;> omega

open ArenaController in
/-- Invariant of the fold over any initial accumulator satisfying it. -/
lemma foldl_foldGame_inv : ∀ (games : List GameResult) (acc : AggAcc),
    (∀ i, acc.wins i + acc.losses i = acc.gamesPlayed i) →
    ∀ i, (games.foldl foldGame acc).wins i + (games.foldl foldGame acc).losses i
      = (games.foldl foldGame acc).gamesPlayed i
  | [], _, h => h
  | g :: rest, acc, h => by
    rw [List.foldl_cons]
    exact foldl_foldGame_inv rest (foldGame acc g) (foldGame_inv acc g h)

open ArenaController in
/-- C7: after folding any prefix of any stream of match results through
the aggregation loop of `ArenaController.aggregateResults` — that is,
after every individual result is folded in, not only at the end — every
competitor `i` satisfies `wins[i] + losses[i] = gamesPlayed[i]`. -/
theorem aggregate_wins_add_losses_eq_gamesPlayed
    (games : List GameResult) (k i : Nat) :
    (aggregateGames (games.take k)).wins i + (aggregateGames (games.take k)).losses i
      = (aggregateGames (games.take k)).gamesPlayed i :=
  foldl_foldGame_inv (games.take k) initAcc (fun _ => rfl) i

open ArenaWorker in
/-- C9: in the `RUN_MATCHUP` per-game loop the computed
`startingPlayer = gameNum % 2` alternates (here `[0, 1]` for a two-game
matchup), but the engine calls issued for game 0 and game 1 are
identical — `runSingleMatchup(bot1, bot2, bot1Index, bot2Index, 1)`
receives no starting-player argument, so no alternation of the first
mover ever reaches the engine. -/
theorem startingPlayer_dead_code :
    (runMatchupCalls "botA" "botB" 0 1 2).map Prod.fst = [0, 1] ∧
    (runMatchupCalls "botA" "botB" 0 1 2).map Prod.snd =
      [{ bot1 := "botA", bot2 := "botB", bot1Index := 0, bot2Index := 1, count := 1 },
       { bot1 := "botA", bot2 := "botB", bot1Index := 0, bot2Index := 1, count := 1 }] := by
  constructor <;> rfl

/-- Two pointwise array updates commute. -/
lemma addAt_addAt {α : Type} [AddCommMonoid α] (f : Nat → α) (i j : Nat) (x y : α) :
    addAt (addAt f i x) j y = addAt (addAt f j y) i x := by
  funext k
  simp only [addAt]
  split_ifs <;> first | rfl | rw [add_right_comm]

/-- Two pairs of pointwise array updates commute blockwise. -/
lemma addAt4_swap {α : Type} [AddCommMonoid α] (f : Nat → α) (a1 a2 b1 b2 : Nat)
    (x1 x2 y1 y2 : α) :
    addAt (addAt (addAt (addAt f a1 x1) a2 x2) b1 y1) b2 y2
      = addAt (addAt (addAt (addAt f b1 y1) b2 y2) a1 x1) a2 x2 := by
  funext k
  simp only [addAt]
  split_ifs <;> abel

open ArenaController in
/-- Folding two games into the accumulators in either order gives the
same accumulators (the updates are commuting pointwise additions). -/
lemma foldGame_comm (z : AggAcc) (g1 g2 : GameResult) :
    foldGame (foldGame z g1) g2 = foldGame (foldGame z g2) g1 := by
  by_cases h1 : g1.winner = 0 <;> by_cases h2 : g2.winner = 0 <;>
    simp only [foldGame, h1, h2, if_true, if_false, reduceIte] <;>
    congr 1 <;>
    first
      | apply addAt4_swap
      | apply addAt_addAt

open ArenaController in
/-- Aggregation accumulators are invariant under permutation of the
game-result stream. -/
lemma aggregateGames_perm (l1 l2 : List GameResult) (h : l1.Perm l2) :
    aggregateGames l1 = aggregateGames l2 :=
  h.foldl_eq' (fun x _ y _ z => foldGame_comm z x y) initAcc

open ArenaController in
/-- The second-pass `totalTurns` updates commute as well. -/
lemma foldTurns_comm (z : Nat → Nat) (g1 g2 : GameResult) :
    foldTurns (foldTurns z g1) g2 = foldTurns (foldTurns z g2) g1 := by
  simp only [foldTurns]
  apply addAt4_swap

open ArenaController in
/-- The `totalTurns` array is invariant under permutation of the
game-result stream. -/
lemma totalTurnsAcc_perm (l1 l2 : List GameResult) (h : l1.Perm l2) :
    totalTurnsAcc l1 = totalTurnsAcc l2 :=
  h.foldl_eq' (fun x _ y _ z => foldTurns_comm z x y) (fun _ => 0)

open ArenaController in
/-- C6: aggregation is order-independent — whenever two matchup-outcome
lists deliver the same multiset of game results (one is a permutation of
the other), `ArenaController.aggregateResults` produces identical
per-competitor accumulator arrays (`wins`, `losses`, `gamesPlayed`,
`totalPoints`, `totalWinTurns`) and identical derived average arrays. -/
theorem aggregateResults_order_independent (numBots : Nat) (m1 m2 : List MatchupOutcome)
    (h : (m1.flatMap MatchupOutcome.results).Perm (m2.flatMap MatchupOutcome.results)) :
    (aggregateResults numBots m1).wins = (aggregateResults numBots m2).wins ∧
    (aggregateResults numBots m1).losses = (aggregateResults numBots m2).losses ∧
    (aggregateResults numBots m1).gamesPlayed = (aggregateResults numBots m2).gamesPlayed ∧
    (aggregateResults numBots m1).totalPoints = (aggregateResults numBots m2).totalPoints ∧
    (aggregateResults numBots m1).totalWinTurns = (aggregateResults numBots m2).totalWinTurns ∧
    (aggregateResults numBots m1).avgGameLength = (aggregateResults numBots m2).avgGameLength ∧
    (aggregateResults numBots m1).avgPointsScored = (aggregateResults numBots m2).avgPointsScored ∧
    (aggregateResults numBots m1).avgWinTurns = (aggregateResults numBots m2).avgWinTurns := by
  have hacc := aggregateGames_perm _ _ h
  have htt := totalTurnsAcc_perm _ _ h
  simp [aggregateResults, hacc, htt]

open ArenaController in
/-- C6 witness: the games `[cG1, cG2, cG3]` aggregated in order and in
the permuted order `[cG3, cG1, cG2]` (split differently into matchup
outcomes) give identical accumulators and averages. -/
theorem aggregateResults_order_independent_witness :
    (cM1.flatMap MatchupOutcome.results).Perm (cM2.flatMap MatchupOutcome.results) ∧
    ((aggregateResults 2 cM1).wins = (aggregateResults 2 cM2).wins ∧
     (aggregateResults 2 cM1).losses = (aggregateResults 2 cM2).losses ∧
     (aggregateResults 2 cM1).gamesPlayed = (aggregateResults 2 cM2).gamesPlayed ∧
     (aggregateResults 2 cM1).totalPoints = (aggregateResults 2 cM2).totalPoints ∧
     (aggregateResults 2 cM1).totalWinTurns = (aggregateResults 2 cM2).totalWinTurns ∧
     (aggregateResults 2 cM1).avgGameLength = (aggregateResults 2 cM2).avgGameLength ∧
     (aggregateResults 2 cM1).avgPointsScored = (aggregateResults 2 cM2).avgPointsScored ∧
     (aggregateResults 2 cM1).avgWinTurns = (aggregateResults 2 cM2).avgWinTurns) :=
  ⟨by decide, aggregateResults_order_independent 2 cM1 cM2 (by decide)⟩

open ArenaController in
/-- C8 (amended): in the table built by
`ArenaController.calculateWinRates`, the entry of competitor `i` shows
`winRate = (wins[i] / (wins[i] + losses[i]) * 100).toFixed(1)` when
`wins[i] + losses[i] > 0`, and the number `0` — not N/A — when the
denominator is zero; the `'N/A'` (here `none`) reporting applies to the
`avgWinTurns` column instead. -/
theorem calculateWinRates_winRate_display (r : ArenaResults) (i : Nat) (hi : i < r.numBots) :
    ((calculateWinRates r).map BotDisplay.winRate)[i]? =
      some (if 0 < r.wins i + r.losses i
        then roundTenth (((r.wins i : ℚ) / ((r.wins i : ℚ) + (r.losses i : ℚ))) * 100)
        else 0) ∧
    ((calculateWinRates r).map BotDisplay.avgWinTurns)[i]? =
      some (if 0 < r.avgWinTurns i then some (roundTenth (r.avgWinTurns i)) else none) := by
  constructor <;>
    simp [calculateWinRates, List.getElem?_map, List.getElem?_range hi, Nat.cast_add]

open ArenaController in
/-- C8 witness: the theorem applied to the aggregation of the concrete
games `[cG1, cG2, cG3]` between competitors 0 and 1. -/
theorem calculateWinRates_winRate_display_witness :
    0 < (aggregateResults 2 cM1).numBots ∧
    (((calculateWinRates (aggregateResults 2 cM1)).map BotDisplay.winRate)[0]? =
      some (if 0 < (aggregateResults 2 cM1).wins 0 + (aggregateResults 2 cM1).losses 0
        then roundTenth ((((aggregateResults 2 cM1).wins 0 : ℚ) /
          (((aggregateResults 2 cM1).wins 0 : ℚ) + ((aggregateResults 2 cM1).losses 0 : ℚ))) * 100)
        else 0) ∧
     ((calculateWinRates (aggregateResults 2 cM1)).map BotDisplay.avgWinTurns)[0]? =
      some (if 0 < (aggregateResults 2 cM1).avgWinTurns 0
        then some (roundTenth ((aggregateResults 2 cM1).avgWinTurns 0)) else none)) :=
  ⟨by decide, calculateWinRates_winRate_display (aggregateResults 2 cM1) 0 (by decide)⟩

open ArenaController in
/-- C8 counterexample: for a single competitor with no games the code
displays the number `0` as the win rate (and reserves the `'N/A'` value
for `avgWinTurns`), whereas the claimed display rule `specWinRate` is
undefined (N/A) when `wins + losses = 0`. -/
theorem winRate_zero_games_is_zero_not_NA :
    (calculateWinRates (aggregateResults 1 [])).map BotDisplay.winRate = [0] ∧
    (calculateWinRates (aggregateResults 1 [])).map BotDisplay.avgWinTurns = [none] ∧
    (aggregateResults 1 []).wins 0 + (aggregateResults 1 []).losses 0 = 0 ∧
    specWinRate ((aggregateResults 1 []).wins 0) ((aggregateResults 1 []).losses 0) = none := by
  refine ⟨by decide, by decide, by decide, by decide⟩

open ArenaWorkerPool in
/-- C10: submitting an empty task list to `ArenaWorkerPool.runTasks`
resolves the returned promise immediately (in the same step, before any
worker event) with the empty result list, for every prior pool state. -/
theorem runTasks_empty_resolves_immediately
    (s : PoolState) (hasCallback : Bool) :
    (runTasks s [] hasCallback).2 = [PoolEffect.resolve []] := by
  simp [runTasks]

namespace ArenaWorkerPool

/-- Resolutions distribute over effect concatenation. -/
lemma resolutions_append (a b : List PoolEffect) :
    resolutions (a ++ b) = resolutions a ++ resolutions b :=
  List.filterMap_append a b _

/-- While tasks remain incomplete, `processNextTask` never resolves and
leaves the completion bookkeeping untouched. -/
lemma processNextTask_not_done (s : PoolState) (h : s.completedTasks < s.totalTasks) :
    resolutions (processNextTask s).2 = [] ∧
    (processNextTask s).1.results = s.results ∧
    (processNextTask s).1.completedTasks = s.completedTasks ∧
    (processNextTask s).1.totalTasks = s.totalTasks ∧
    (processNextTask s).1.resolveArmed = s.resolveArmed ∧
    (processNextTask s).1.hasProgressCallback = s.hasProgressCallback := by
  rw [processNextTask, if_neg (by omega)]
  rcases s.taskQueue with _ | ⟨t, q⟩ <;> rcases s.availableWorkers with _ | ⟨w, ws⟩ <;>
    simp [resolutions]

/-- When every task is complete and the promise is armed,
`processNextTask` resolves it with the accumulated results. -/
lemma processNextTask_done (s : PoolState) (h1 : s.totalTasks ≤ s.completedTasks)
    (h2 : s.resolveArmed = true) :
    processNextTask s = ({ s with resolveArmed := false }, [PoolEffect.resolve s.results]) := by
  rw [processNextTask, if_pos h1, if_pos h2]

/-- The initial assignment loop of `runTasks` never resolves while tasks
remain incomplete. -/
lemma processN_not_done : ∀ (n : Nat) (s : PoolState), s.completedTasks < s.totalTasks →
    resolutions (processN n s).2 = [] ∧
    (processN n s).1.results = s.results ∧
    (processN n s).1.completedTasks = s.completedTasks ∧
    (processN n s).1.totalTasks = s.totalTasks ∧
    (processN n s).1.resolveArmed = s.resolveArmed ∧
    (processN n s).1.hasProgressCallback = s.hasProgressCallback
  | 0, s, _ => by simp [processN, resolutions]
  | n + 1, s, h => by
    obtain ⟨e1, r1, c1, t1, a1, p1⟩ := processNextTask_not_done s h
    obtain ⟨e2, r2, c2, t2, a2, p2⟩ := processN_not_done n (processNextTask s).1 (by omega)
    refine ⟨?_, ?_, ?_, ?_, ?_, ?_⟩ <;>
      simp [processN, resolutions_append, e1, e2, r1, r2, c1, c2, t1, t2, a1, a2, p1, p2]

/-- A run consisting only of `GAME_COMPLETE` messages emits no
resolution. -/
lemma poolRunMsgs_no_terminal : ∀ (events : List (Nat × WorkerMsg)) (s : PoolState),
    (∀ e ∈ events, isTerminalMsg e.2 = false) →
    resolutions (poolRunMsgs s events).2 = []
  | [], _, _ => rfl
  | (w, m) :: rest, s, h => by
    have hm : isTerminalMsg m = false := h (w, m) (List.mem_cons_self _ _)
    cases m with
    | gameComplete mid g =>
        have hrest := poolRunMsgs_no_terminal rest
          ({ s with completedGames := s.completedGames + 1 })
          (fun e he => h e (List.mem_cons_of_mem _ he))
        simp only [poolRunMsgs, handleWorkerMessage]
        rw [resolutions_append, hrest]
        split <;> simp [resolutions]
    | matchupComplete mid rs => simp [isTerminalMsg] at hm
    | matchupError mid err => simp [isTerminalMsg] at hm

/-- An event list with no terminal message contributes no success
outcomes. -/
lemma successOutcomes_no_terminal : ∀ (events : List (Nat × WorkerMsg)),
    (∀ e ∈ events, isTerminalMsg e.2 = false) →
    successOutcomes events = []
  | [], _ => rfl
  | (w, m) :: rest, h => by
    have hm : isTerminalMsg m = false := h (w, m) (List.mem_cons_self _ _)
    cases m with
    | gameComplete mid g =>
        simpa [successOutcomes] using
          successOutcomes_no_terminal rest (fun e he => h e (List.mem_cons_of_mem _ he))
    | matchupComplete mid rs => simp [isTerminalMsg] at hm
    | matchupError mid err => simp [isTerminalMsg] at hm

/-- Unfolding step: a `MATCHUP_COMPLETE` event contributes its outcome
record. -/
lemma successOutcomes_cons_complete (w : Nat) (mid : String) (rs : List GameResult)
    (rest : List (Nat × WorkerMsg)) :
    successOutcomes ((w, WorkerMsg.matchupComplete mid rs) :: rest)
      = { matchupId := mid, results := rs } :: successOutcomes rest := rfl

/-- Unfolding step: a `MATCHUP_ERROR` event contributes no outcome. -/
lemma successOutcomes_cons_error (w : Nat) (mid err : String)
    (rest : List (Nat × WorkerMsg)) :
    successOutcomes ((w, WorkerMsg.matchupError mid err) :: rest)
      = successOutcomes rest := rfl

/-- The single-step scheduler never touches the recorded outcomes or
the completion counters. -/
lemma processNextTask_core_fields (s : PoolState) :
    (processNextTask s).1.results = s.results ∧
    (processNextTask s).1.completedTasks = s.completedTasks := by
  rw [processNextTask]
  split_ifs with h1 h2
  · exact ⟨rfl, rfl⟩
  · exact ⟨rfl, rfl⟩
  · rcases hq : s.taskQueue with _ | ⟨t, q⟩ <;> rcases ha : s.availableWorkers with _ | ⟨a, ws⟩ <;>
      simp [hq, ha]

/-- A worker that is idle when the scheduler runs either stays idle or
is handed the front queued task. -/
lemma processNextTask_keeps_or_assigns (s : PoolState) (w : Nat)
    (hw : w ∈ s.availableWorkers) :
    w ∈ (processNextTask s).1.availableWorkers ∨
      ∃ t, PoolEffect.post w t ∈ (processNextTask s).2 := by
  rw [processNextTask]
  split_ifs with h1 h2
  · left
    simpa using hw
  · left
    simpa using hw
  · rcases hq : s.taskQueue with _ | ⟨t, q⟩
    · left
      simpa [hq] using hw
    · rcases ha : s.availableWorkers with _ | ⟨a, ws⟩
      · rw [ha] at hw
        simp at hw
      · by_cases haw : w = a
        · right
          exact ⟨t, by simp [hq, ha, haw]⟩
        · left
          rcases List.mem_cons.mp (ha ▸ hw) with hcase | hcase
          · exact absurd hcase haw
          · simp [hq, ha, hcase]

/-- Core resolution lemma: starting from an armed pool whose remaining
terminal-message count exactly matches the missing completions, the
message run emits exactly one resolution, carrying the already-recorded
outcomes followed by one `{matchupId, results}` record per
`MATCHUP_COMPLETE` message (and nothing for `MATCHUP_ERROR`s). -/
lemma poolRunMsgs_resolves : ∀ (events : List (Nat × WorkerMsg)) (s : PoolState),
    s.resolveArmed = true →
    s.completedTasks + events.countP (fun e => isTerminalMsg e.2) = s.totalTasks →
    s.completedTasks < s.totalTasks →
    resolutions (poolRunMsgs s events).2 = [s.results ++ successOutcomes events]
  | [], s, _, hcnt, hlt => by
    simp [List.countP_nil] at hcnt
    omega
  | (w, m) :: rest, s, harm, hcnt, hlt => by
    rw [List.countP_cons] at hcnt
    cases m with
    | gameComplete mid g =>
        have hrest := poolRunMsgs_resolves rest
          ({ s with completedGames := s.completedGames + 1 })
          harm (by simpa [isTerminalMsg] using hcnt) hlt
        simp only [poolRunMsgs, handleWorkerMessage]
        rw [resolutions_append, hrest]
        split <;> simp [resolutions, successOutcomes]
    | matchupComplete mid rs =>
        have hterm : isTerminalMsg (WorkerMsg.matchupComplete mid rs) = true := rfl
        rw [hterm] at hcnt
        simp only [if_true, reduceIte] at hcnt
        by_cases hdone : s.completedTasks + 1 = s.totalTasks
        · have hk : rest.countP (fun e => isTerminalMsg e.2) = 0 := by omega
          have hnone : ∀ e ∈ rest, isTerminalMsg e.2 = false := by
            intro e he
            have := List.countP_eq_zero.mp hk e he
            simpa using this
          rw [poolRunMsgs]
          simp only [handleWorkerMessage]
          rw [processNextTask_done _ (by simp; omega) (by simpa using harm)]
          rw [resolutions_append, poolRunMsgs_no_terminal rest _ hnone,
            successOutcomes_cons_complete, successOutcomes_no_terminal rest hnone]
          simp [resolutions]
        · have hlt' : s.completedTasks + 1 < s.totalTasks := by omega
          rw [poolRunMsgs]
          simp only [handleWorkerMessage]
          set s1 : PoolState :=
            { s with results := s.results ++ [{ matchupId := mid, results := rs }]
                     completedTasks := s.completedTasks + 1
                     busyWorkers := s.busyWorkers.erase w
                     availableWorkers := s.availableWorkers ++ [w] } with hs1
          obtain ⟨e1, r1, c1, t1, a1, _⟩ := processNextTask_not_done s1 (by simp [hs1]; omega)
          have hrest := poolRunMsgs_resolves rest (processNextTask s1).1
            (by rw [a1]; simpa [hs1] using harm)
            (by rw [c1, t1]; simp [hs1]; omega)
            (by rw [c1, t1]; simpa [hs1] using hlt')
          rw [resolutions_append, e1, hrest, r1, successOutcomes_cons_complete]
          simp [hs1]
    | matchupError mid err =>
        have hterm : isTerminalMsg (WorkerMsg.matchupError mid err) = true := rfl
        rw [hterm] at hcnt
        simp only [if_true, reduceIte] at hcnt
        by_cases hdone : s.completedTasks + 1 = s.totalTasks
        · have hk : rest.countP (fun e => isTerminalMsg e.2) = 0 := by omega
          have hnone : ∀ e ∈ rest, isTerminalMsg e.2 = false := by
            intro e he
            have := List.countP_eq_zero.mp hk e he
            simpa using this
          rw [poolRunMsgs]
          simp only [handleWorkerMessage]
          rw [processNextTask_done _ (by simp; omega) (by simpa using harm)]
          rw [resolutions_append, poolRunMsgs_no_terminal rest _ hnone,
            successOutcomes_cons_error, successOutcomes_no_terminal rest hnone]
          simp [resolutions]
        · have hlt' : s.completedTasks + 1 < s.totalTasks := by omega
          rw [poolRunMsgs]
          simp only [handleWorkerMessage]
          set s1 : PoolState :=
            { s with completedTasks := s.completedTasks + 1
                     busyWorkers := s.busyWorkers.erase w
                     availableWorkers := s.availableWorkers ++ [w] } with hs1
          obtain ⟨e1, r1, c1, t1, a1, _⟩ := processNextTask_not_done s1 (by simp [hs1]; omega)
          have hrest := poolRunMsgs_resolves rest (processNextTask s1).1
            (by rw [a1]; simpa [hs1] using harm)
            (by rw [c1, t1]; simp [hs1]; omega)
            (by rw [c1, t1]; simpa [hs1] using hlt')
          rw [resolutions_append, e1, hrest, r1, successOutcomes_cons_error]
          simp [hs1]

end ArenaWorkerPool

open ArenaWorkerPool in
/-- C1 (amended): submitting a non-empty task list `tasks` and then
processing any sequence of worker messages containing exactly
`tasks.length` terminal messages (successes and per-task errors in any
completion order) resolves the submission promise exactly once; the
resolved list carries one `{matchupId, results}` record per successful
matchup, tagged with its originating matchup identity and in completion
order, while errored tasks are counted toward completion but contribute
no record — so the resolved list's length equals the number of
successes, not necessarily the number of submitted tasks. -/
theorem runTasks_resolves_once_with_success_outcomes
    (s0 : PoolState) (tasks : List Task) (hasCallback : Bool)
    (events : List (Nat × WorkerMsg))
    (hne : tasks ≠ [])
    (hcnt : events.countP (fun e => isTerminalMsg e.2) = tasks.length) :
    resolutions ((runTasks s0 tasks hasCallback).2 ++
        (poolRunMsgs (runTasks s0 tasks hasCallback).1 events).2)
      = [successOutcomes events] := by
  have hpos : 0 < tasks.length := List.length_pos.mpr hne
  rw [runTasks]
  simp only []
  rw [if_neg ?hcond]
  case hcond =>
    omega
  set s1 : PoolState :=
    { s0 with taskQueue := tasks
              totalTasks := tasks.length
              completedTasks := 0
              results := []
              hasProgressCallback := hasCallback
              totalGames := (tasks.map Task.gamesPerMatchup).sum
              completedGames := 0
              resolveArmed := true } with hs1
  obtain ⟨e1, r1, c1, t1, a1, _⟩ :=
    processN_not_done (min s1.workerCount s1.taskQueue.length) s1 (by simp [hs1]; omega)
  have hrun := poolRunMsgs_resolves events (processN (min s1.workerCount s1.taskQueue.length) s1).1
    (by rw [a1]) (by rw [c1, t1]; simpa [hs1] using hcnt)
    (by rw [c1, t1]; simpa [hs1] using hpos)
  rw [resolutions_append, e1, hrun, r1]
  simp [hs1]

open ArenaWorkerPool in
/-- C1 witness: one task submitted to a fresh single-worker pool,
completed successfully — the promise resolves exactly once with the one
tagged outcome. -/
theorem runTasks_resolves_once_witness :
    [cTask] ≠ [] ∧
    ([(0, ArenaWorkerPool.WorkerMsg.matchupComplete "bot0_vs_bot1"
        [cG1])].countP (fun e => ArenaWorkerPool.isTerminalMsg e.2) = [cTask].length) ∧
    ArenaWorkerPool.resolutions
        ((ArenaWorkerPool.runTasks (ArenaWorkerPool.freshPool 1) [cTask] false).2 ++
          (ArenaWorkerPool.poolRunMsgs
            (ArenaWorkerPool.runTasks (ArenaWorkerPool.freshPool 1) [cTask] false).1
            [(0, ArenaWorkerPool.WorkerMsg.matchupComplete "bot0_vs_bot1" [cG1])]).2)
      = [ArenaWorkerPool.successOutcomes
          [(0, ArenaWorkerPool.WorkerMsg.matchupComplete "bot0_vs_bot1" [cG1])]] :=
  ⟨by decide, by decide,
    runTasks_resolves_once_with_success_outcomes (ArenaWorkerPool.freshPool 1) [cTask] false
      [(0, ArenaWorkerPool.WorkerMsg.matchupComplete "bot0_vs_bot1" [cG1])]
      (by decide) (by decide)⟩

open ArenaWorkerPool in
/-- C1 counterexample: one submitted task (`T = 1`) whose matchup fails
with `MATCHUP_ERROR` — the promise resolves, but with the empty result
list: length 0 ≠ 1 = T, falsifying "the resolved result list has length
exactly T, containing one outcome per submitted task (successes and
per-task errors both counted)". -/
theorem runTasks_error_outcome_missing :
    ArenaWorkerPool.resolutions
        ((ArenaWorkerPool.runTasks (ArenaWorkerPool.freshPool 1) [cTask] false).2 ++
          (ArenaWorkerPool.poolRunMsgs
            (ArenaWorkerPool.runTasks (ArenaWorkerPool.freshPool 1) [cTask] false).1
            [(0, ArenaWorkerPool.WorkerMsg.matchupError "bot0_vs_bot1" "boom")]).2)
      = [([] : List MatchupOutcome)] ∧
    ([] : List MatchupOutcome).length ≠ [cTask].length := by
  refine ⟨by decide, by decide⟩

open ArenaWorkerPool in
/-- C3 (amended): when a worker's error handler fires while that worker
is busy, the pool counts its current task as completed without recording
any error outcome in the result list, and returns the worker to
circulation — afterwards the worker is either in the idle
`availableWorkers` list again or has immediately been assigned the next
queued task; a crash while not busy changes nothing.  The crashed worker
is not marked permanently unavailable. -/
theorem handleWorkerError_returns_worker_to_pool
    (s : PoolState) (w : Nat) (h : w ∈ s.busyWorkers) :
    (handleWorkerError s w).1.results = s.results ∧
    (handleWorkerError s w).1.completedTasks = s.completedTasks + 1 ∧
    (w ∈ (handleWorkerError s w).1.availableWorkers ∨
      ∃ t, PoolEffect.post w t ∈ (handleWorkerError s w).2) := by
  rw [handleWorkerError, if_pos h]
  set s1 : PoolState :=
    { s with busyWorkers := s.busyWorkers.erase w
             availableWorkers := s.availableWorkers ++ [w]
             completedTasks := s.completedTasks + 1 } with hs1
  obtain ⟨hr, hc⟩ := processNextTask_core_fields s1
  have hka := processNextTask_keeps_or_assigns s1 w (by simp [hs1])
  exact ⟨by rw [hr], by rw [hc], hka⟩

open ArenaWorkerPool in
/-- C3 witness: the amended theorem at the concrete crashed-while-busy
state `cPool`. -/
theorem handleWorkerError_returns_worker_to_pool_witness :
    0 ∈ cPool.busyWorkers ∧
    ((ArenaWorkerPool.handleWorkerError cPool 0).1.results = cPool.results ∧
     (ArenaWorkerPool.handleWorkerError cPool 0).1.completedTasks = cPool.completedTasks + 1 ∧
     (0 ∈ (ArenaWorkerPool.handleWorkerError cPool 0).1.availableWorkers ∨
       ∃ t, ArenaWorkerPool.PoolEffect.post 0 t ∈ (ArenaWorkerPool.handleWorkerError cPool 0).2)) :=
  ⟨by decide, handleWorkerError_returns_worker_to_pool cPool 0 (by decide)⟩

open ArenaWorkerPool in
/-- C3 counterexample: in `cPool`, worker 0 crashes while busy and is
immediately handed the next queued task (`post 0 cTask` is emitted) and
re-enters the busy set, and no error outcome is recorded — falsifying
"never again placed in the idle/available set and never assigned another
queued task; its currently assigned task is recorded as an error
outcome". -/
theorem handleWorkerError_reassigns_crashed_worker :
    (ArenaWorkerPool.handleWorkerError cPool 0).2 = [ArenaWorkerPool.PoolEffect.post 0 cTask] ∧
    0 ∈ (ArenaWorkerPool.handleWorkerError cPool 0).1.busyWorkers ∧
    (ArenaWorkerPool.handleWorkerError cPool 0).1.results = [] := by
  refine ⟨by decide, by decide, by decide⟩

namespace AIWorkerProxy

/-- Settling effects distribute over effect concatenation. -/
lemma settlesFor_append (id : Nat) (a b : List ProxyEffect) :
    settlesFor id (a ++ b) = settlesFor id a ++ settlesFor id b :=
  List.filter_append a b

/-- Unfolding step for the proxy event run. -/
lemma proxyRun_cons (s : ProxyState) (e : ProxyEvent) (rest : List ProxyEvent) :
    proxyRun s (e :: rest)
      = ((proxyRun (proxyStep s e).1 rest).1,
         (proxyStep s e).2 ++ (proxyRun (proxyStep s e).1 rest).2) := rfl

/-- While every processed event avoids request `id` (no matching reply,
no matching timer fire, no terminate), the pending entry and the armed
timer of request `id` survive, the id stays below the fresh-id counter,
and no emitted effect settles request `id`'s promise. -/
lemma proxyRun_avoid (id d : Nat) : ∀ (events : List ProxyEvent) (s : ProxyState),
    (id, d) ∈ s.pending → (id, d) ∈ s.timers → id < s.requestIdCounter →
    (∀ e ∈ events, avoidsId id e = true) →
    ((id, d) ∈ (proxyRun s events).1.pending ∧
     (id, d) ∈ (proxyRun s events).1.timers ∧
     id < (proxyRun s events).1.requestIdCounter ∧
     settlesFor id (proxyRun s events).2 = [])
  | [], s, hp, ht, hc, _ => ⟨hp, ht, hc, rfl⟩
  | e :: rest, s, hp, ht, hc, hav => by
    have hav1 : avoidsId id e = true := hav e (List.mem_cons_self _ _)
    have havr : ∀ e' ∈ rest, avoidsId id e' = true :=
      fun e' he' => hav e' (List.mem_cons_of_mem _ he')
    have hstep : (id, d) ∈ (proxyStep s e).1.pending ∧
        (id, d) ∈ (proxyStep s e).1.timers ∧
        id < (proxyStep s e).1.requestIdCounter ∧
        settlesFor id (proxyStep s e).2 = [] := by
      cases e with
      | request now =>
          by_cases hre : s.isReady = false
          · simp only [proxyStep, getAIAction, hre, if_true, reduceIte]
            exact ⟨hp, ht, hc, rfl⟩
          · by_cases hue : s.useWorker = false
            · simp only [proxyStep, getAIAction, hre, hue, if_true, if_false, reduceIte]
              exact ⟨hp, ht, hc, rfl⟩
            · simp only [proxyStep, getAIAction, hre, hue, if_true, if_false, reduceIte]
              refine ⟨List.mem_append_left _ hp, List.mem_append_left _ ht, by simp; omega, rfl⟩
      | timerFire i now =>
          have hne : i ≠ id := by simpa [avoidsId] using hav1
          simp only [proxyStep, fireTimeout]
          refine ⟨List.mem_filter.mpr ⟨hp, by simpa using Ne.symm hne⟩,
            List.mem_filter.mpr ⟨ht, by simpa using Ne.symm hne⟩, hc, ?_⟩
          simp [settlesFor, hne]
      | actionResult i a =>
          have hne : i ≠ id := by simpa [avoidsId] using hav1
          by_cases hany : s.pending.any (fun p => p.1 == i) = true
          · simp only [proxyStep, handleActionResult, hany, if_true, reduceIte]
            refine ⟨List.mem_filter.mpr ⟨hp, by simpa using Ne.symm hne⟩,
              List.mem_filter.mpr ⟨ht, by simpa using Ne.symm hne⟩, hc, ?_⟩
            simp [settlesFor, hne]
          · simp only [proxyStep, handleActionResult, hany, if_false, reduceIte]
            exact ⟨hp, ht, hc, rfl⟩
      | actionError i m =>
          have hne : i ≠ id := by simpa [avoidsId] using hav1
          by_cases hany : s.pending.any (fun p => p.1 == i) = true
          · simp only [proxyStep, handleActionError, hany, if_true, reduceIte]
            refine ⟨List.mem_filter.mpr ⟨hp, by simpa using Ne.symm hne⟩,
              List.mem_filter.mpr ⟨ht, by simpa using Ne.symm hne⟩, hc, ?_⟩
            simp [settlesFor, hne]
          · simp only [proxyStep, handleActionError, hany, if_false, reduceIte]
            exact ⟨hp, ht, hc, rfl⟩
      | terminateCall =>
          simp [avoidsId] at hav1
    obtain ⟨h1, h2, h3, h4⟩ := hstep
    obtain ⟨i1, i2, i3, i4⟩ := proxyRun_avoid id d rest (proxyStep s e).1 h1 h2 h3 havr
    rw [proxyRun_cons]
    exact ⟨i1, i2, i3, by rw [settlesFor_append, h4, i4]; rfl⟩

end AIWorkerProxy

open AIWorkerProxy in
/-- C2 (amended): `AIWorkerProxy.terminate` releases the worker, clears
readiness, and empties the pending-request table — but it rejects
nothing (no `Terminated` rejection exists in the code; `settlesFor`
finds no settling effect for any request id), and the pending requests'
armed 30-second timeout timers are left untouched, so each abandoned
request's promise is settled only later, when its timer fires and
rejects it with the timeout error. -/
theorem terminate_clears_pending_without_reject (s : ProxyState) :
    (terminate s).1.pending = [] ∧
    (terminate s).1.hasWorker = false ∧
    (terminate s).1.isReady = false ∧
    (terminate s).1.timers = s.timers ∧
    (∀ id, settlesFor id (terminate s).2 = []) ∧
    (terminate s).2 = (if s.hasWorker then [ProxyEffect.terminateWorker] else []) := by
  refine ⟨rfl, rfl, rfl, rfl, ?_, rfl⟩
  intro id
  by_cases hw : s.hasWorker <;> simp [terminate, settlesFor, hw]

open AIWorkerProxy in
/-- C2 counterexample: `cProxy` has one pending request (id 0), yet
`terminate` emits only `worker.terminate()` — no rejection of request 0
(with `Terminated` or anything else) occurs, falsifying "rejects every
pending request with a Terminated error"; the table is emptied and the
timer stays armed. -/
theorem terminate_no_reject_counterexample :
    cProxy.pending = [(0, 30000)] ∧
    (AIWorkerProxy.terminate cProxy).2 = [AIWorkerProxy.ProxyEffect.terminateWorker] ∧
    AIWorkerProxy.settlesFor 0 (AIWorkerProxy.terminate cProxy).2 = [] ∧
    (AIWorkerProxy.terminate cProxy).1.pending = [] ∧
    (AIWorkerProxy.terminate cProxy).1.timers = [(0, 30000)] := by
  refine ⟨by decide, by decide, by decide, by decide, by decide⟩

open AIWorkerProxy in
/-- C4: a request issued at time `t0` on a ready worker-backed proxy
gets the fresh id `requestIdCounter` and a pending entry and armed timer
with deadline `t0 + 30000`; across any event sequence that never
delivers a matching reply (and does not terminate the proxy) the entry
and timer survive and nothing settles the request; firing the timer —
which the environment may do only at a time `t' ≥ t0 + 30000` — rejects
the request with the timeout error and removes its pending entry; and a
matching reply arriving after expiry finds no pending entry and is
discarded without resolving or rejecting anything. -/
theorem getAIAction_timeout_spec
    (s0 : ProxyState) (t0 : Nat) (mid : List ProxyEvent) (t' : Nat) (action : String)
    (hready : s0.isReady = true) (hw : s0.useWorker = true)
    (hmid : ∀ e ∈ mid, avoidsId s0.requestIdCounter e = true)
    (ht' : t0 + 30000 ≤ t') :
    ∃ s1 : ProxyState,
      getAIAction s0 t0 = Except.ok (s1,
        [ProxyEffect.postCompute s0.requestIdCounter s0.difficulty s0.timeLimit],
        some s0.requestIdCounter) ∧
      (s0.requestIdCounter, t0 + 30000) ∈ (proxyRun s1 mid).1.pending ∧
      (s0.requestIdCounter, t0 + 30000) ∈ (proxyRun s1 mid).1.timers ∧
      settlesFor s0.requestIdCounter (proxyRun s1 mid).2 = [] ∧
      t0 + 30000 ≤ t' ∧
      (fireTimeout (proxyRun s1 mid).1 s0.requestIdCounter).2
        = [ProxyEffect.reject s0.requestIdCounter ProxyError.timeout] ∧
      (∀ p ∈ (fireTimeout (proxyRun s1 mid).1 s0.requestIdCounter).1.pending,
        p.1 ≠ s0.requestIdCounter) ∧
      handleActionResult (fireTimeout (proxyRun s1 mid).1 s0.requestIdCounter).1
          s0.requestIdCounter action
        = ((fireTimeout (proxyRun s1 mid).1 s0.requestIdCounter).1, []) := by
  set s1 : ProxyState :=
    { s0 with requestIdCounter := s0.requestIdCounter + 1
              pending := s0.pending ++ [(s0.requestIdCounter, t0 + 30000)]
              timers := s0.timers ++ [(s0.requestIdCounter, t0 + 30000)] } with hs1
  refine ⟨s1, ?_, ?_⟩
  · simp [getAIAction, hready, hw, hs1]
  obtain ⟨i1, i2, _, i4⟩ := proxyRun_avoid s0.requestIdCounter (t0 + 30000) mid s1
    (by simp [hs1]) (by simp [hs1]) (by simp [hs1]) hmid
  refine ⟨i1, i2, i4, ht', rfl, ?_, ?_⟩
  · intro p hp
    have hmem := List.mem_filter.mp hp
    simpa using hmem.2
  · rw [handleActionResult, if_neg]
    intro hany
    obtain ⟨p, hp, hpe⟩ := List.any_eq_true.mp hany
    have hmem := List.mem_filter.mp hp
    have h1 : p.1 ≠ s0.requestIdCounter := by simpa using hmem.2
    exact h1 (by simpa using hpe)

open AIWorkerProxy in
/-- C4 witness: a fresh proxy, a request at time 0, no intervening
events, and the timer fired at exactly the 30000 ms deadline. -/
theorem getAIAction_timeout_spec_witness :
    freshProxy.isReady = true ∧ freshProxy.useWorker = true ∧
    (∀ e ∈ ([] : List ProxyEvent), avoidsId freshProxy.requestIdCounter e = true) ∧
    0 + 30000 ≤ 30000 ∧
    (∃ s1 : ProxyState,
      getAIAction freshProxy 0 = Except.ok (s1,
        [ProxyEffect.postCompute freshProxy.requestIdCounter freshProxy.difficulty
          freshProxy.timeLimit],
        some freshProxy.requestIdCounter) ∧
      (freshProxy.requestIdCounter, 0 + 30000) ∈ (proxyRun s1 []).1.pending ∧
      (freshProxy.requestIdCounter, 0 + 30000) ∈ (proxyRun s1 []).1.timers ∧
      settlesFor freshProxy.requestIdCounter (proxyRun s1 []).2 = [] ∧
      0 + 30000 ≤ 30000 ∧
      (fireTimeout (proxyRun s1 []).1 freshProxy.requestIdCounter).2
        = [ProxyEffect.reject freshProxy.requestIdCounter ProxyError.timeout] ∧
      (∀ p ∈ (fireTimeout (proxyRun s1 []).1 freshProxy.requestIdCounter).1.pending,
        p.1 ≠ freshProxy.requestIdCounter) ∧
      handleActionResult (fireTimeout (proxyRun s1 []).1 freshProxy.requestIdCounter).1
          freshProxy.requestIdCounter "action"
        = ((fireTimeout (proxyRun s1 []).1 freshProxy.requestIdCounter).1, [])) :=
  ⟨rfl, rfl, by simp, by decide,
    getAIAction_timeout_spec freshProxy 0 [] 30000 "action" rfl rfl (by simp) (by decide)⟩

end ZSplendor
